import Mathlib

/-!
Verification development for the scale-space pyramid and keypoint-detection
pipeline in playground/pyramid.py.

Modelling conventions:
* Images in the pipeline are grayscale numpy arrays loaded with
  cv2.imread(..., IMREAD_GRAYSCALE), hence pixel dtype uint8.  A pixel is
  modelled as an integer in [0, 256); every numpy uint8 operation wraps
  modulo 256, modelled by `u8` below.
* cv2.GaussianBlur and cv2.resize are external primitives; the pyramid
  builder is therefore parametrised over abstract `blur`, `resize` and
  `shape` functions (polymorphic in the image representation) so that every
  statement about the builder is about its control flow, which is what the
  source file contributes.
* The Python float constant 1.6 (the hard-coded sigma reset value and the
  default initial sigma) and the updates sigma *= 2.0 are modelled exactly
  in ℚ as 8/5 and multiplication by 2; doubling and resetting are exact in
  IEEE floats as well, so the rational model reproduces the float sigma
  schedule faithfully.
-/

/-- A grayscale image: a rectangular grid of uint8 pixel values, row major,
stored as integers in [0, 256). -/
abbrev Image := List (List ℤ)

/-- numpy uint8 arithmetic: results wrap modulo 256 (Int.emod is
nonnegative for a positive modulus, matching the unsigned representative). -/
def u8 (x : ℤ) : ℤ := x % 256

/-- img[i, j] for a row-major grid (out-of-range reads default to 0; the
detector only reads in-bounds pixels). -/
def pix (img : Image) (i j : ℕ) : ℤ := (img.getD i []).getD j 0

/-- img.shape[0]: the number of rows. -/
def imgRows (img : Image) : ℕ := img.length

/-- img.shape[1]: the number of columns (of a rectangular grid). -/
def imgCols (img : Image) : ℕ := (img.headD []).length

/-- np.max over a 2-D slice (the slices used are always nonempty 3×3). -/
def npmax (g : Image) : ℤ := g.flatten.foldl max (g.flatten.headD 0)

/-- np.min over a 2-D slice (the slices used are always nonempty 3×3). -/
def npmin (g : Image) : ℤ := g.flatten.foldl min (g.flatten.headD 0)

/-- The 3×3 window img[i-1:i+2, j-1:j+2]; callers only use interior
(i, j), where the window is a full 3×3 block. -/
def slice3 (img : Image) (i j : ℕ) : Image :=
  (List.range 3).map fun di => (List.range 3).map fun dj => pix img (i - 1 + di) (j - 1 + dj)

/-- is_local_extremum from pyramid.py (lines 137-142), verbatim control flow:
the function returns True, False, or falls through returning None (modelled
as an Option Bool); its caller treats only True as acceptance. -/
def is_local_extremum (center upper lower : Image) : Option Bool :=
  let center_val := pix center 1 1
  if center_val > npmax upper ∨ center_val < npmin lower then some true
  else if center_val < npmax upper ∨ center_val > npmin lower then some false
  else none

/-- is_edge_point from pyramid.py (lines 144-156).  dx, dy and their squares
and sum are numpy uint8 scalars, so each intermediate wraps modulo 256.  The
source compares np.sqrt(s) > edge_threshold; for natural-number thresholds
this is equivalent to s > edge_threshold², which is how the comparison is
written here (both sides are nonnegative). -/
def is_edge_point (img : Image) (i j : ℕ) (edge_threshold : ℕ) : Bool :=
  let dx := u8 (pix img (i + 1) j - pix img (i - 1) j)
  let dy := u8 (pix img i (j + 1) - pix img i (j - 1))
  let gradient_sq := u8 (u8 (dx * dx) + u8 (dy * dy))
  if gradient_sq > (edge_threshold : ℤ) ^ 2 then false else true

/-- detect_keypoints_in_image from pyramid.py (lines 159-174): scan interior
pixels i ∈ range(1, rows−1), j ∈ range(1, cols−1); accept when
is_local_extremum returns True, then drop low-contrast (abs < threshold) and
edge (is_edge_point with its default edge_threshold = 10) candidates; append
the surviving (i, j). -/
def detect_keypoints_in_image (img prev_img next_img : Image) (threshold : ℤ) :
    List (ℕ × ℕ) :=
  (List.range' 1 (imgRows img - 2)).flatMap fun i =>
    (List.range' 1 (imgCols img - 2)).filterMap fun j =>
      if is_local_extremum (slice3 img i j) (slice3 prev_img i j) (slice3 next_img i j)
          = some true then
        if |pix img i j| < threshold then none
        else if is_edge_point img i j 10 then none
        else some (i, j)
      else none

/-- detect_keypoints from pyramid.py (lines 128-135): for every octave, for
scale over enumerate(octave_images[1:-1]), the examined image is
octave_images[scale+1] with prev_img = octave_images[scale] and
next_img = octave_images[scale+2]; results are concatenated in octave-major,
then scale, then row-major order. -/
def detect_keypoints (DoG_pyramid : List (List Image)) (threshold : ℤ) : List (ℕ × ℕ) :=
  DoG_pyramid.flatMap fun octave_images =>
    (List.range (octave_images.length - 2)).flatMap fun scale =>
      detect_keypoints_in_image (octave_images.getD (scale + 1) [])
        (octave_images.getD scale []) (octave_images.getD (scale + 2) []) threshold

/-- Element-wise numpy subtraction octave[i+1] − octave[i] of two equal-shape
uint8 images: each pixel difference wraps modulo 256. -/
def imageSub (x y : Image) : Image :=
  List.zipWith (fun rx ry => List.zipWith (fun a b => u8 (a - b)) rx ry) x y

/-- generate_DoG_pyramid from pyramid.py (lines 69-92): for each octave, for
i in range(len(octave) − 1), DoG[i] = octave[i+1] − octave[i]. -/
def generate_DoG_pyramid (gaussian_pyramid : List (List Image)) : List (List Image) :=
  gaussian_pyramid.map fun octave =>
    (List.range (octave.length - 1)).map fun i =>
      imageSub (octave.getD (i + 1) []) (octave.getD i [])

/-- The inner scale loop of build_scale_space_pyramid (lines 43-51): each
scale blurs the octave's seed image (never the previous scale's output) with
the working sigma, then the working sigma doubles. -/
def buildScalesP {α : Type} (blur : α → ℚ → α) : ℕ → α → ℚ → List α
  | 0, _, _ => []
  | n + 1, current_image, sigma =>
    blur current_image sigma :: buildScalesP blur n current_image (sigma * 2)

/-- The downsampling step between octaves (lines 53-59):
new_width = int(shape[1] / downsampling_factor),
new_height = int(shape[0] / downsampling_factor), then
cv2.resize(current_image, (new_width, new_height), INTER_NEAREST).
For nonnegative sizes int(a / b) is floor division. -/
def dsStep {α : Type} (resize : α → ℕ → ℕ → α) (shape : α → ℕ × ℕ)
    (downsampling_factor : ℕ) (a : α) : α :=
  resize a ((shape a).2 / downsampling_factor) ((shape a).1 / downsampling_factor)

/-- The octave loop of build_scale_space_pyramid (lines 39-64): build the
scales of the current seed, downsample the seed for the next octave, and
reset the working sigma to the hard-coded literal 1.6 (= 8/5), exactly as
line 62 of the source does. -/
def buildOctavesP {α : Type} (blur : α → ℚ → α) (resize : α → ℕ → ℕ → α)
    (shape : α → ℕ × ℕ) (downsampling_factor num_scales : ℕ) :
    ℕ → α → ℚ → List (List α)
  | 0, _, _ => []
  | n + 1, current_image, sigma =>
    buildScalesP blur num_scales current_image sigma
      :: buildOctavesP blur resize shape downsampling_factor num_scales n
        (dsStep resize shape downsampling_factor current_image) (8 / 5)

/-- build_scale_space_pyramid from pyramid.py (lines 5-66), parametrised over
the external blur/resize primitives.  image.copy() only protects the caller's
array (see the heap model below); on values it is the identity. -/
def build_scale_space_pyramid {α : Type} (blur : α → ℚ → α) (resize : α → ℕ → ℕ → α)
    (shape : α → ℕ × ℕ) (image : α) (num_octaves num_scales : ℕ) (sigma : ℚ)
    (downsampling_factor : ℕ) : List (List α) :=
  buildOctavesP blur resize shape downsampling_factor num_scales num_octaves image sigma

/-- The seed image (the value of the loop variable current_image) at the
start of octave k: seed 0 is the input, and each next seed is the
downsampling step applied to the previous seed. -/
def seedAt {α : Type} (resize : α → ℕ → ℕ → α) (shape : α → ℕ × ℕ)
    (downsampling_factor : ℕ) (image : α) : ℕ → α
  | 0 => image
  | k + 1 => dsStep resize shape downsampling_factor
      (seedAt resize shape downsampling_factor image k)

/-- Modelled from the spec (section 4.3 step 1): the extremum rule the claim
states — accept iff the center value is strictly greater than every value in
both neighbouring 3×3 blocks, or strictly smaller than every value in both.
Written for comparison with the source's is_local_extremum. -/
def extremum_rule_spec (center upper lower : Image) : Bool :=
  let c := pix center 1 1
  (upper.flatten.all (fun x => decide (x < c)) && lower.flatten.all (fun x => decide (x < c)))
    || (upper.flatten.all (fun x => decide (c < x)) && lower.flatten.all (fun x => decide (c < x)))

/-- Modelled from the spec (section 4.3 step 3): the edge filter in exact
signed arithmetic: dx = image[row+1,col] − image[row−1,col],
dy = image[row,col+1] − image[row,col−1], reject (return true) iff
sqrt(dx² + dy²) ≤ edge_threshold, written as dx² + dy² ≤ edge_threshold²
(both sides nonnegative).  Written for comparison with the source's
is_edge_point. -/
def edge_rule_spec (img : Image) (i j : ℕ) (edge_threshold : ℕ) : Bool :=
  let dx := pix img (i + 1) j - pix img (i - 1) j
  let dy := pix img i (j + 1) - pix img i (j - 1)
  decide (dx ^ 2 + dy ^ 2 ≤ (edge_threshold : ℤ) ^ 2)

/-- The all-zero 3×3 image. -/
def zero3 : Image := [[0, 0, 0], [0, 0, 0], [0, 0, 0]]

/-- A 3×3 DoG image with a strong center response (200) and one off-center
value 12 placed so that the (wrapped) gradient check keeps the candidate. -/
def spikeImg : Image := [[0, 0, 0], [0, 200, 0], [0, 12, 0]]

/-- A DoG octave whose single interior scale has the spike image, flanked by
zero images. -/
def octaveA : List Image := [zero3, spikeImg, zero3]

/-- A DoG octave of three zero images: uniform, so no extremum anywhere. -/
def octaveZ : List Image := [zero3, zero3, zero3]

/-- Two-octave DoG pyramid with the spike in octave 0. -/
def pyrA : List (List Image) := [octaveA, octaveZ]

/-- Two-octave DoG pyramid with the spike in octave 1. -/
def pyrB : List (List Image) := [octaveZ, octaveA]

/-- A store of numpy arrays: reference r denotes arrays[r].  Used to state
the frame property of the builder (the caller's input array is never
mutated). -/
structure Heap (α : Type) where
  arrays : List α

/-- Allocate a fresh array in the store and return its reference.  Each of
image.copy(), cv2.GaussianBlur and cv2.resize (without a dst argument)
returns a newly allocated array; in this model every primitive result is
allocated with halloc and no existing slot is ever written. -/
def halloc {α : Type} (h : Heap α) (a : α) : Heap α × ℕ :=
  (⟨h.arrays ++ [a]⟩, h.arrays.length)

/-- Read the array behind a reference. -/
def hget {α : Type} (d : α) (h : Heap α) (r : ℕ) : α :=
  h.arrays.getD r d

/-- Store-level version of the scale loop: each blurred image is a fresh
allocation; current_image is only read. -/
def buildScalesH {α : Type} (blur : α → ℚ → α) (d : α) :
    ℕ → Heap α → ℕ → ℚ → Heap α × List ℕ
  | 0, h, _, _ => (h, [])
  | n + 1, h, cur, sigma =>
    let p := halloc h (blur (hget d h cur) sigma)
    let q := buildScalesH blur d n p.1 cur (sigma * 2)
    (q.1, p.2 :: q.2)

/-- Store-level version of the octave loop: the downsampled seed for the
next octave is a fresh allocation of cv2.resize's result. -/
def buildOctavesH {α : Type} (blur : α → ℚ → α) (resize : α → ℕ → ℕ → α)
    (shape : α → ℕ × ℕ) (d : α) (downsampling_factor num_scales : ℕ) :
    ℕ → Heap α → ℕ → ℚ → Heap α × List (List ℕ)
  | 0, h, _, _ => (h, [])
  | n + 1, h, cur, sigma =>
    let p := buildScalesH blur d num_scales h cur sigma
    let q := halloc p.1 (dsStep resize shape downsampling_factor (hget d p.1 cur))
    let r := buildOctavesH blur resize shape d downsampling_factor num_scales n
      q.1 q.2 (8 / 5)
    (r.1, p.2 :: r.2)

/-- Store-level build_scale_space_pyramid: line 37 copies the caller's input
(current_image = image.copy()) into a fresh slot, and every later primitive
result is likewise freshly allocated. -/
def build_scale_space_pyramidH {α : Type} (blur : α → ℚ → α) (resize : α → ℕ → ℕ → α)
    (shape : α → ℕ × ℕ) (d : α) (image_ref : ℕ) (num_octaves num_scales : ℕ)
    (sigma : ℚ) (downsampling_factor : ℕ) (h : Heap α) : Heap α × List (List ℕ) :=
  let c := halloc h (hget d h image_ref)
  buildOctavesH blur resize shape d downsampling_factor num_scales num_octaves
    c.1 c.2 sigma

/-! ## Helper lemmas -/

theorem foldl_max_lt_iff (c : ℤ) : ∀ (l : List ℤ) (a : ℤ),
    l.foldl max a < c ↔ a < c ∧ ∀ x ∈ l, x < c
  | [], a => by simp
  | x :: t, a => by
    rw [List.foldl_cons, foldl_max_lt_iff c t (max a x), max_lt_iff]
    simp only [List.mem_cons]
    constructor
    · rintro ⟨⟨h1, h2⟩, h3⟩
      exact ⟨h1, fun y hy => by rcases hy with rfl | hy; exacts [h2, h3 y hy]⟩
    · rintro ⟨h1, h2⟩
      exact ⟨⟨h1, h2 x (Or.inl rfl)⟩, fun y hy => h2 y (Or.inr hy)⟩

theorem lt_foldl_min_iff (c : ℤ) : ∀ (l : List ℤ) (a : ℤ),
    c < l.foldl min a ↔ c < a ∧ ∀ x ∈ l, c < x
  | [], a => by simp
  | x :: t, a => by
    rw [List.foldl_cons, lt_foldl_min_iff c t (min a x), lt_min_iff]
    simp only [List.mem_cons]
    constructor
    · rintro ⟨⟨h1, h2⟩, h3⟩
      exact ⟨h1, fun y hy => by rcases hy with rfl | hy; exacts [h2, h3 y hy]⟩
    · rintro ⟨h1, h2⟩
      exact ⟨⟨h1, h2 x (Or.inl rfl)⟩, fun y hy => h2 y (Or.inr hy)⟩

theorem npmax_lt_iff (g : Image) (c : ℤ) (h : g.flatten ≠ []) :
    npmax g < c ↔ ∀ x ∈ g.flatten, x < c := by
  unfold npmax
  rcases hg : g.flatten with _ | ⟨y, t⟩
  · exact absurd hg h
  · rw [List.headD_cons, List.foldl_cons, max_self, foldl_max_lt_iff]
    simp [List.forall_mem_cons]

theorem lt_npmin_iff (g : Image) (c : ℤ) (h : g.flatten ≠ []) :
    c < npmin g ↔ ∀ x ∈ g.flatten, c < x := by
  unfold npmin
  rcases hg : g.flatten with _ | ⟨y, t⟩
  · exact absurd hg h
  · rw [List.headD_cons, List.foldl_cons, min_self, lt_foldl_min_iff]
    simp [List.forall_mem_cons]

theorem is_local_extremum_eq_some_true (center upper lower : Image) :
    is_local_extremum center upper lower = some true
      ↔ (npmax upper < pix center 1 1 ∨ pix center 1 1 < npmin lower) := by
  unfold is_local_extremum
  dsimp only
  split_ifs with h1 h2
  · exact iff_of_true rfl h1
  · exact iff_of_false (by simp) h1
  · exact iff_of_false (by simp) h1

/-! ## Claim C1 -/

/-- Claim C1, counterexample: with center value 5, the previous-scale block
all zero, and the next-scale block containing a 10, the source's extremum
test accepts (returns True), while the claimed rule — strictly greater than
every value in BOTH adjacent blocks, or strictly smaller than every value
in both — rejects.  So the claimed if-and-only-if fails on the code. -/
theorem is_local_extremum_cex :
    is_local_extremum [[0, 0, 0], [0, 5, 0], [0, 0, 0]] zero3
        [[10, 0, 0], [0, 0, 0], [0, 0, 0]] = some true
    ∧ extremum_rule_spec [[0, 0, 0], [0, 5, 0], [0, 0, 0]] zero3
        [[10, 0, 0], [0, 0, 0], [0, 0, 0]] = false := by decide

/-- Claim C1, amended: the detector's extremum test accepts a candidate iff
the center value is strictly greater than every value of the 3×3 block of
the PREVIOUS scale (m−1, passed as upper) alone, OR strictly smaller than
every value of the 3×3 block of the NEXT scale (m+1, passed as lower) alone;
the two adjacent scales are never required simultaneously, and the current
scale's own neighbours are not examined at all. -/
theorem is_local_extremum_accepts_iff (center upper lower : Image)
    (hu : upper.flatten ≠ []) (hl : lower.flatten ≠ []) :
    is_local_extremum center upper lower = some true
      ↔ ((∀ x ∈ upper.flatten, x < pix center 1 1)
          ∨ (∀ x ∈ lower.flatten, pix center 1 1 < x)) := by
  rw [is_local_extremum_eq_some_true, npmax_lt_iff upper _ hu, lt_npmin_iff lower _ hl]

/-- Witness for is_local_extremum_accepts_iff at the concrete spike input. -/
theorem is_local_extremum_accepts_iff_witness :
    is_local_extremum spikeImg zero3 zero3 = some true
      ↔ ((∀ x ∈ (zero3 : Image).flatten, x < pix spikeImg 1 1)
          ∨ (∀ x ∈ (zero3 : Image).flatten, pix spikeImg 1 1 < x)) :=
  is_local_extremum_accepts_iff spikeImg zero3 zero3 (by decide) (by decide)

/-! ## Claim C2 -/

/-- Claim C2: instrumented run of the builder (blur returns the sigma it was
given, so the pyramid records the sigma schedule).  With initialSigma = 3,
2 octaves and 2 scales, octave 0 blurs with sigmas 3 and 6, but octave 1
blurs with sigmas 8/5 (= 1.6) and 16/5 — line 62 of the source resets the
working sigma to the hard-coded literal 1.6, not to the caller's
initialSigma, so the claimed schedule initialSigma·2^s fails for every
octave after the first whenever initialSigma ≠ 1.6. -/
theorem build_sigma_schedule_eval :
    build_scale_space_pyramid (fun (_ : ℚ) sigma => sigma) (fun a _ _ => a)
        (fun _ => (4, 4)) 0 2 2 3 2 = [[3, 6], [8/5, 16/5]] := by
  norm_num [build_scale_space_pyramid, buildOctavesP, buildScalesP, dsStep]

/-! ## Claim C4 -/

/-- Claim C4: the DoG subtraction on the pipeline's uint8 images wraps
modulo 256: a Gaussian octave of two 1×1 images with pixel values 5 then 3
yields a DoG pixel of 254, not the signed difference −2 the claim (and the
spec's signed-representation requirement) describes. -/
theorem generate_DoG_wraps_eval :
    generate_DoG_pyramid [[[[5]], [[3]]]] = [[[[254]]]] := by decide

/-! ## Claim C8 -/

/-- Claim C8: the edge filter's uint8 arithmetic wraps.  At the center of
this 3×3 image dx = 16, so the true gradient magnitude is 16 > 10 and the
claimed rule keeps the candidate (edge_rule_spec = false); but the code
squares the uint8 dx, 16² wraps to 0 mod 256, the computed magnitude is 0,
and is_edge_point returns true (reject). -/
theorem is_edge_point_wrap_eval :
    is_edge_point [[0, 0, 0], [0, 0, 0], [0, 16, 0]] 1 1 10 = true
    ∧ edge_rule_spec [[0, 0, 0], [0, 0, 0], [0, 16, 0]] 1 1 10 = false := by decide

/-! ## Claim C5 -/

theorem buildOctavesP_zero_scales {α : Type} (blur : α → ℚ → α)
    (resize : α → ℕ → ℕ → α) (shape : α → ℕ × ℕ) (f : ℕ) :
    ∀ (n : ℕ) (cur : α) (sigma : ℚ),
      buildOctavesP blur resize shape f 0 n cur sigma = List.replicate n []
  | 0, _, _ => rfl
  | n + 1, _, _ =>
    congrArg (List.cons []) (buildOctavesP_zero_scales blur resize shape f n _ _)

/-- Claim C5, counterexample: with the invalid configuration numScales = 0
(< 1) and numOctaves = 2, the builder does not detect any error and does not
fail fast: it runs the full octave loop (including two downsampling calls)
and returns a 2-octave pyramid of empty octaves.  No validation of any kind
precedes pyramid construction in the source. -/
theorem build_invalid_config_runs :
    build_scale_space_pyramid (fun (a : ℚ) _ => a) (fun a _ _ => a)
        (fun _ => (3, 3)) 0 2 0 (8/5) 2 = [[], []] := rfl

/-- Claim C5, amended: the pipeline performs no configuration or input
validation at all.  Invalid configurations are accepted and produce normal
degenerate outputs: numOctaves < 1 (i.e. 0, since the loop count is a
natural) yields the empty pyramid for every image and every other parameter,
and numScales < 1 yields numOctaves octaves that are all empty; nothing is
checked before construction begins. -/
theorem build_no_validation {α : Type} (blur : α → ℚ → α) (resize : α → ℕ → ℕ → α)
    (shape : α → ℕ × ℕ) (image : α) (sigma : ℚ) (f : ℕ) :
    (∀ ns, build_scale_space_pyramid blur resize shape image 0 ns sigma f = [])
    ∧ ∀ no, build_scale_space_pyramid blur resize shape image no 0 sigma f
        = List.replicate no [] :=
  ⟨fun _ => rfl, fun no => buildOctavesP_zero_scales blur resize shape f no image sigma⟩

/-! ## Claim C9 -/

/-- Claim C9: a DoG pyramid all of whose octaves have at most 2 images
(every numScales < 4 produces such octaves, numScales = 3 giving length
exactly 2) yields an empty keypoint list; the detector is a total function,
so no error is possible. -/
theorem detect_keypoints_short_octaves (P : List (List Image)) (threshold : ℤ)
    (h : ∀ oct ∈ P, oct.length ≤ 2) :
    detect_keypoints P threshold = [] := by
  unfold detect_keypoints
  rw [List.flatMap_eq_nil_iff]
  intro oct hoct
  have h2 : oct.length - 2 = 0 := by have := h oct hoct; omega
  rw [h2]
  rfl

/-- Witness for detect_keypoints_short_octaves: a pyramid with a 2-image
octave and an empty octave yields no keypoints. -/
theorem detect_keypoints_short_octaves_witness :
    detect_keypoints [[zero3, spikeImg], []] 0 = [] :=
  detect_keypoints_short_octaves [[zero3, spikeImg], []] 0 (by decide)

/-! ## Claim C6 -/

theorem buildScalesP_length {α : Type} (blur : α → ℚ → α) :
    ∀ (n : ℕ) (cur : α) (sigma : ℚ), (buildScalesP blur n cur sigma).length = n
  | 0, _, _ => rfl
  | n + 1, cur, sigma =>
    congrArg Nat.succ (buildScalesP_length blur n cur (sigma * 2))

theorem mem_buildScalesP {α : Type} (blur : α → ℚ → α) :
    ∀ (n : ℕ) (cur : α) (sigma : ℚ) (a : α),
      a ∈ buildScalesP blur n cur sigma → ∃ s, a = blur cur s
  | 0, _, _, a => by simp [buildScalesP]
  | n + 1, cur, sigma, a => by
    simp only [buildScalesP, List.mem_cons]
    rintro (rfl | h)
    · exact ⟨sigma, rfl⟩
    · exact mem_buildScalesP blur n cur (sigma * 2) a h

theorem buildOctavesP_length {α : Type} (blur : α → ℚ → α) (resize : α → ℕ → ℕ → α)
    (shape : α → ℕ × ℕ) (f ns : ℕ) :
    ∀ (n : ℕ) (cur : α) (sigma : ℚ),
      (buildOctavesP blur resize shape f ns n cur sigma).length = n
  | 0, _, _ => rfl
  | n + 1, _, _ =>
    congrArg Nat.succ (buildOctavesP_length blur resize shape f ns n _ _)

theorem mem_buildOctavesP {α : Type} (blur : α → ℚ → α) (resize : α → ℕ → ℕ → α)
    (shape : α → ℕ × ℕ) (f ns : ℕ) :
    ∀ (n : ℕ) (cur : α) (sigma : ℚ) (oct : List α),
      oct ∈ buildOctavesP blur resize shape f ns n cur sigma →
        ∃ c s, oct = buildScalesP blur ns c s
  | 0, _, _, oct => by simp [buildOctavesP]
  | n + 1, cur, sigma, oct => by
    simp only [buildOctavesP, List.mem_cons]
    rintro (rfl | h)
    · exact ⟨cur, sigma, rfl⟩
    · exact mem_buildOctavesP blur resize shape f ns n _ _ oct h

/-- Claim C6: provided the external blur primitive preserves image shape
(cv2.GaussianBlur returns an image of the input's size), the builder returns
exactly numOctaves octaves, each of exactly numScales images that all share
one width/height (any two images of one octave have equal shape, since each
octave blurs a single seed image). -/
theorem build_pyramid_shape {α : Type} (blur : α → ℚ → α) (resize : α → ℕ → ℕ → α)
    (shape : α → ℕ × ℕ) (image : α) (num_octaves num_scales : ℕ) (sigma : ℚ)
    (f : ℕ) (hblur : ∀ a s, shape (blur a s) = shape a) :
    (build_scale_space_pyramid blur resize shape image num_octaves num_scales
        sigma f).length = num_octaves
    ∧ ∀ oct ∈ build_scale_space_pyramid blur resize shape image num_octaves
        num_scales sigma f,
        oct.length = num_scales ∧ ∀ a ∈ oct, ∀ b ∈ oct, shape a = shape b := by
  refine ⟨buildOctavesP_length blur resize shape f num_scales num_octaves image sigma,
    fun oct hoct => ?_⟩
  obtain ⟨c, s, rfl⟩ := mem_buildOctavesP blur resize shape f num_scales
    num_octaves image sigma oct hoct
  refine ⟨buildScalesP_length blur num_scales c s, fun a ha b hb => ?_⟩
  obtain ⟨s1, rfl⟩ := mem_buildScalesP blur num_scales c s a ha
  obtain ⟨s2, rfl⟩ := mem_buildScalesP blur num_scales c s b hb
  rw [hblur, hblur]

/-- Witness for build_pyramid_shape with a concrete shape-preserving blur. -/
theorem build_pyramid_shape_witness :
    (build_scale_space_pyramid (fun (a : ℕ) _ => a) (fun a _ _ => a)
        (fun _ => (1, 1)) 7 2 3 (8/5) 2).length = 2
    ∧ ∀ oct ∈ build_scale_space_pyramid (fun (a : ℕ) _ => a) (fun a _ _ => a)
        (fun _ => (1, 1)) 7 2 3 (8/5) 2,
        oct.length = 3 ∧ ∀ a ∈ oct, ∀ b ∈ oct,
          (fun (_ : ℕ) => ((1 : ℕ), (1 : ℕ))) a = (fun _ => (1, 1)) b :=
  build_pyramid_shape (fun a _ => a) (fun a _ _ => a) (fun _ => (1, 1)) 7 2 3 (8/5) 2
    (fun _ _ => rfl)

/-! ## Claim C7 -/

theorem seedAt_succ_shift {α : Type} (resize : α → ℕ → ℕ → α) (shape : α → ℕ × ℕ)
    (f : ℕ) (image : α) :
    ∀ k, seedAt resize shape f image (k + 1)
      = seedAt resize shape f (dsStep resize shape f image) k
  | 0 => rfl
  | k + 1 => congrArg (dsStep resize shape f) (seedAt_succ_shift resize shape f image k)

theorem buildOctavesP_getD {α : Type} (blur : α → ℚ → α) (resize : α → ℕ → ℕ → α)
    (shape : α → ℕ × ℕ) (f ns : ℕ) :
    ∀ (n : ℕ) (cur : α) (sigma : ℚ) (k : ℕ), k < n →
      (buildOctavesP blur resize shape f ns n cur sigma).getD k []
        = buildScalesP blur ns (seedAt resize shape f cur k)
            (if k = 0 then sigma else 8 / 5)
  | 0, _, _, k => fun h => absurd h (Nat.not_lt_zero k)
  | _ + 1, _, _, 0 => fun _ => rfl
  | n + 1, cur, sigma, k + 1 => fun h => by
    show (buildOctavesP blur resize shape f ns n
        (dsStep resize shape f cur) (8 / 5)).getD k []
      = buildScalesP blur ns (seedAt resize shape f cur (k + 1))
          (if k + 1 = 0 then sigma else 8 / 5)
    rw [buildOctavesP_getD blur resize shape f ns n _ _ k (by omega)]
    rw [← seedAt_succ_shift resize shape f cur k]
    congr 1
    simp

/-- Claim C7: the octave after index k is built from the nearest-neighbor
downsampling of octave k's un-blurred seed image (the resize primitive is
applied to the seed, never to a blurred scale), its requested size is
(floor(width_k / factor), floor(height_k / factor)), and — provided the
external resize primitive returns an image of the requested size and blur
preserves size — every image of octave k+1 has exactly the resolution
(floor(height_k / factor) rows, floor(width_k / factor) columns). -/
theorem build_octave_seed_resize {α : Type} (blur : α → ℚ → α) (resize : α → ℕ → ℕ → α)
    (shape : α → ℕ × ℕ) (image : α) (num_octaves num_scales : ℕ) (sigma : ℚ)
    (f k : ℕ) (hk : k + 1 < num_octaves)
    (hresize : ∀ a w h, shape (resize a w h) = (h, w))
    (hblur : ∀ a s, shape (blur a s) = shape a) :
    (build_scale_space_pyramid blur resize shape image num_octaves num_scales
        sigma f).getD (k + 1) []
      = buildScalesP blur num_scales
          (resize (seedAt resize shape f image k)
            ((shape (seedAt resize shape f image k)).2 / f)
            ((shape (seedAt resize shape f image k)).1 / f)) (8 / 5)
    ∧ ∀ a ∈ (build_scale_space_pyramid blur resize shape image num_octaves
        num_scales sigma f).getD (k + 1) [],
        shape a = ((shape (seedAt resize shape f image k)).1 / f,
                   (shape (seedAt resize shape f image k)).2 / f) := by
  have h1 := buildOctavesP_getD blur resize shape f num_scales num_octaves
    image sigma (k + 1) hk
  have hseed : seedAt resize shape f image (k + 1)
      = resize (seedAt resize shape f image k)
          ((shape (seedAt resize shape f image k)).2 / f)
          ((shape (seedAt resize shape f image k)).1 / f) := rfl
  constructor
  · unfold build_scale_space_pyramid
    rw [h1, if_neg (Nat.succ_ne_zero k), hseed]
  · intro a ha
    unfold build_scale_space_pyramid at ha
    rw [h1] at ha
    obtain ⟨s, rfl⟩ := mem_buildScalesP blur num_scales _ _ a ha
    rw [hblur, hseed, hresize]

/-- A shape-reporting resize used to witness build_octave_seed_resize: the
image representation is its own (rows, cols) pair. -/
def wres (_ : ℕ × ℕ) (w h : ℕ) : ℕ × ℕ := (h, w)

/-- A shape-preserving blur on the (rows, cols) representation. -/
def wblur (a : ℕ × ℕ) (_ : ℚ) : ℕ × ℕ := a

/-- The shape of the (rows, cols) representation is itself. -/
def wshape (p : ℕ × ℕ) : ℕ × ℕ := p

/-- Witness for build_octave_seed_resize on a 9×9 input with factor 2. -/
theorem build_octave_seed_resize_witness :
    (build_scale_space_pyramid wblur wres wshape (9, 9) 2 1 1 2).getD 1 []
      = buildScalesP wblur 1
          (wres (seedAt wres wshape 2 (9, 9) 0)
            ((wshape (seedAt wres wshape 2 (9, 9) 0)).2 / 2)
            ((wshape (seedAt wres wshape 2 (9, 9) 0)).1 / 2)) (8 / 5)
    ∧ ∀ a ∈ (build_scale_space_pyramid wblur wres wshape (9, 9) 2 1 1 2).getD 1 [],
        wshape a = ((wshape (seedAt wres wshape 2 (9, 9) 0)).1 / 2,
                    (wshape (seedAt wres wshape 2 (9, 9) 0)).2 / 2) :=
  build_octave_seed_resize wblur wres wshape (9, 9) 2 1 1 2 0 (by decide)
    (fun _ _ _ => rfl) (fun _ _ => rfl)

/-! ## Claim C3 -/

/-- Claim C3, counterexample: the detector returns bare (row, col) pairs; a
keypoint found in octave 0 of pyrA and the same-position keypoint found in
octave 1 of pyrB produce identical outputs [(1, 1)], so the returned records
carry no octaveIndex and no scaleIndex field. -/
theorem detect_keypoints_no_octave_cex :
    detect_keypoints pyrA 100 = [(1, 1)] ∧ detect_keypoints pyrB 100 = [(1, 1)]
    ∧ pyrA ≠ pyrB := by decide

/-- Claim C3, amended: every keypoint returned by the detector is a
(row, col) pair (no octave or scale field) that was found in the image at
some interior scale index m ∈ [1, len(octave)−2] of some octave, with
row ∈ [1, height−2] and col ∈ [1, width−2] for that image. -/
theorem detect_keypoints_bounds (P : List (List Image)) (threshold : ℤ) (p : ℕ × ℕ)
    (hp : p ∈ detect_keypoints P threshold) :
    ∃ oct ∈ P, ∃ m, 1 ≤ m ∧ m + 1 < oct.length
      ∧ 1 ≤ p.1 ∧ p.1 ≤ imgRows (oct.getD m []) - 2
      ∧ 1 ≤ p.2 ∧ p.2 ≤ imgCols (oct.getD m []) - 2 := by
  unfold detect_keypoints at hp
  rw [List.mem_flatMap] at hp
  obtain ⟨oct, hoct, hp⟩ := hp
  rw [List.mem_flatMap] at hp
  obtain ⟨scale, hscale, hp⟩ := hp
  rw [List.mem_range] at hscale
  unfold detect_keypoints_in_image at hp
  rw [List.mem_flatMap] at hp
  obtain ⟨i, hi, hp⟩ := hp
  rw [List.mem_range'_1] at hi
  rw [List.mem_filterMap] at hp
  obtain ⟨j, hj, hp⟩ := hp
  rw [List.mem_range'_1] at hj
  have hij : p = (i, j) := by
    split_ifs at hp
    exact (Option.some.inj hp).symm
  subst hij
  refine ⟨oct, hoct, scale + 1, Nat.le_add_left 1 scale, by omega, hi.1, ?_, hj.1, ?_⟩
  · show i ≤ imgRows (oct.getD (scale + 1) []) - 2
    omega
  · show j ≤ imgCols (oct.getD (scale + 1) []) - 2
    omega

/-- Witness for detect_keypoints_bounds at the concrete keypoint of pyrA. -/
theorem detect_keypoints_bounds_witness :
    ∃ oct ∈ pyrA, ∃ m, 1 ≤ m ∧ m + 1 < oct.length
      ∧ 1 ≤ ((1, 1) : ℕ × ℕ).1 ∧ ((1, 1) : ℕ × ℕ).1 ≤ imgRows (oct.getD m []) - 2
      ∧ 1 ≤ ((1, 1) : ℕ × ℕ).2 ∧ ((1, 1) : ℕ × ℕ).2 ≤ imgCols (oct.getD m []) - 2 :=
  detect_keypoints_bounds pyrA 100 (1, 1) (by decide)

/-! ## Claim C10 -/

/-- The result store extends the input store: all pre-existing slots are
kept, new arrays are only appended. -/
def HeapExtends {α : Type} (h h' : Heap α) : Prop :=
  ∃ t, h'.arrays = h.arrays ++ t

theorem heapExtends_refl {α : Type} (h : Heap α) : HeapExtends h h :=
  ⟨[], (List.append_nil _).symm⟩

theorem heapExtends_trans {α : Type} {h1 h2 h3 : Heap α}
    (e12 : HeapExtends h1 h2) (e23 : HeapExtends h2 h3) : HeapExtends h1 h3 := by
  obtain ⟨t1, ht1⟩ := e12
  obtain ⟨t2, ht2⟩ := e23
  exact ⟨t1 ++ t2, by rw [ht2, ht1, List.append_assoc]⟩

theorem heapExtends_halloc {α : Type} (h : Heap α) (a : α) :
    HeapExtends h (halloc h a).1 :=
  ⟨[a], rfl⟩

theorem hget_of_extends {α : Type} (d : α) {h h' : Heap α} (he : HeapExtends h h')
    (r : ℕ) (hr : r < h.arrays.length) : hget d h' r = hget d h r := by
  obtain ⟨t, ht⟩ := he
  unfold hget
  rw [ht, List.getD_append _ _ _ r hr]

theorem buildScalesH_extends {α : Type} (blur : α → ℚ → α) (d : α) :
    ∀ (n : ℕ) (h : Heap α) (cur : ℕ) (sigma : ℚ),
      HeapExtends h (buildScalesH blur d n h cur sigma).1
  | 0, h, _, _ => heapExtends_refl h
  | n + 1, h, cur, sigma =>
    heapExtends_trans (heapExtends_halloc h (blur (hget d h cur) sigma))
      (buildScalesH_extends blur d n (halloc h (blur (hget d h cur) sigma)).1 cur
        (sigma * 2))

theorem buildOctavesH_extends {α : Type} (blur : α → ℚ → α) (resize : α → ℕ → ℕ → α)
    (shape : α → ℕ × ℕ) (d : α) (f ns : ℕ) :
    ∀ (n : ℕ) (h : Heap α) (cur : ℕ) (sigma : ℚ),
      HeapExtends h (buildOctavesH blur resize shape d f ns n h cur sigma).1
  | 0, h, _, _ => heapExtends_refl h
  | n + 1, h, cur, sigma =>
    heapExtends_trans (buildScalesH_extends blur d ns h cur sigma)
      (heapExtends_trans
        (heapExtends_halloc (buildScalesH blur d ns h cur sigma).1
          (dsStep resize shape f
            (hget d (buildScalesH blur d ns h cur sigma).1 cur)))
        (buildOctavesH_extends blur resize shape d f ns n _ _ (8 / 5)))

/-- Claim C10: the store-level builder never changes any pre-existing array
slot: it copies the caller's image on entry (line 37) and every blur/resize
result is a fresh allocation, so after a full build the caller's input image
(and every other pre-existing array) reads back unchanged. -/
theorem buildH_preserves_input {α : Type} (blur : α → ℚ → α) (resize : α → ℕ → ℕ → α)
    (shape : α → ℕ × ℕ) (d : α) (image_ref num_octaves num_scales : ℕ) (sigma : ℚ)
    (f : ℕ) (h : Heap α) (r : ℕ) (hr : r < h.arrays.length) :
    hget d (build_scale_space_pyramidH blur resize shape d image_ref num_octaves
      num_scales sigma f h).1 r = hget d h r :=
  hget_of_extends d
    (heapExtends_trans (heapExtends_halloc h (hget d h image_ref))
      (buildOctavesH_extends blur resize shape d f num_scales num_octaves _ _ sigma))
    r hr

/-- Witness for buildH_preserves_input: a one-slot store holding the value
42 still reads 42 at reference 0 after a 3-octave, 5-scale build that took
its input from that slot. -/
theorem buildH_preserves_input_witness :
    hget 0 (build_scale_space_pyramidH (fun (a : ℕ) _ => a) (fun a _ _ => a)
      (fun _ => (1, 1)) 0 0 3 5 (8/5) 2 ⟨[42]⟩).1 0 = hget 0 ⟨[42]⟩ 0 :=
  buildH_preserves_input (fun a _ => a) (fun a _ _ => a) (fun _ => (1, 1)) 0 0 3 5
    (8/5) 2 ⟨[42]⟩ 0 (by decide)
